import Mathlib

/-!
Verification of the buzzer audio library core against its specification.

The development shallowly embeds the relevant parts of the source:
the HTML5 audio node pool, the media loader, the buffer-backed and
media-backed sound state machines, and the engine lifecycle.  Times,
positions and rates are modelled as rationals; JavaScript arguments that
may be `undefined` or non-numeric are modelled by explicit sum types.
-/

/-- Errors thrown synchronously by the pool.  The message texts follow the
pool test suite (`Maximum nodes reached for resource <url>`,
`No free audio nodes available in the group <groupId>`). -/
inductive BuzzerError where
  | poolExhausted (url : String)
  | noFreeNodes (groupId : Nat)
deriving Repr, DecidableEq

/-- One pooled HTML5 audio node: an identity plus the sound it is bound to
(`none` = reserved for a group but not bound to a specific sound). -/
structure PoolNode where
  nodeId : Nat
  soundId : Option Nat
deriving Repr, DecidableEq

/-- One pool entry per resource URL: a reserve of unallocated nodes plus a
map from group id to the nodes allocated to that group. -/
structure ResourceEntry where
  unallocated : List PoolNode
  allocated : List (Nat × List PoolNode)
deriving Repr, DecidableEq

/-- The empty resource entry. -/
def ResourceEntry.empty : ResourceEntry :=
  { unallocated := [], allocated := [] }

/-- Total number of nodes held in the `allocated` map of an entry. -/
def ResourceEntry.allocatedCount (e : ResourceEntry) : Nat :=
  (e.allocated.map (fun g => g.2.length)).sum

/-- Number of live nodes of an entry: unallocated plus all allocated. -/
def ResourceEntry.live (e : ResourceEntry) : Nat :=
  e.unallocated.length + e.allocatedCount

/-- Modelled from the spec: the `Html5AudioPool` implementation is not under
`src/` (only its test suite is), so the pool state is modelled from the
spec data model, section 3: one entry per resource URL, a per-URL cap
`maxNodesPerSource`, and a counter giving fresh node identities. -/
structure Html5AudioPool where
  maxNodesPerSource : Nat
  resourceNodesMap : List (String × ResourceEntry)
  nextNodeId : Nat
deriving Repr, DecidableEq

/-- A fresh pool with the given per-resource cap. -/
def Html5AudioPool.empty (maxNodes : Nat) : Html5AudioPool :=
  { maxNodesPerSource := maxNodes, resourceNodesMap := [], nextNodeId := 0 }

/-- Association-list lookup of a resource entry by URL. -/
def findEntry (m : List (String × ResourceEntry)) (url : String) : Option ResourceEntry :=
  match m with
  | [] => none
  | (u, e) :: rest => if u = url then some e else findEntry rest url

/-- Association-list update: replaces the entry of `url`, or appends one. -/
def setEntry (m : List (String × ResourceEntry)) (url : String) (e : ResourceEntry) :
    List (String × ResourceEntry) :=
  match m with
  | [] => [(url, e)]
  | (u, e0) :: rest =>
      if u = url then (url, e) :: rest else (u, e0) :: setEntry rest url e

/-- The entry a pool currently holds for `url` (empty if none yet). -/
def Html5AudioPool.entryFor (p : Html5AudioPool) (url : String) : ResourceEntry :=
  (findEntry p.resourceNodesMap url).getD ResourceEntry.empty

/-- Number of live nodes the pool holds for `url`. -/
def Html5AudioPool.liveCount (p : Html5AudioPool) (url : String) : Nat :=
  (p.entryFor url).live

/-- Modelled from the spec: `Html5AudioPool.allocateForSource` is not under
`src/` (only its tests are).  Per spec section 4.1: ensure a pool entry
exists for the URL; if the total number of nodes for the URL (unallocated
plus all allocated) is below the configured maximum, create a new node,
append it to `unallocated` and return it; if the maximum is already
reached, fail with a `PoolExhausted` error naming the resource. -/
def Html5AudioPool.allocateForSource (p : Html5AudioPool) (url : String) :
    Except BuzzerError (Html5AudioPool × PoolNode) :=
  let entry := p.entryFor url
  if entry.live < p.maxNodesPerSource then
    let node : PoolNode := { nodeId := p.nextNodeId, soundId := none }
    .ok ({ p with
            resourceNodesMap :=
              setEntry p.resourceNodesMap url
                { entry with unallocated := entry.unallocated ++ [node] },
            nextNodeId := p.nextNodeId + 1 }, node)
  else
    .error (.poolExhausted url)

/-- One `allocateForSource` call viewed as a state step: a throwing call
leaves the pool unchanged. -/
def Html5AudioPool.allocStep (p : Html5AudioPool) (url : String) : Html5AudioPool :=
  match p.allocateForSource url with
  | .ok (q, _) => q
  | .error _ => p

/-- Performs `n` successive `allocateForSource` calls on the same URL. -/
def Html5AudioPool.allocCalls (p : Html5AudioPool) (url : String) : Nat → Html5AudioPool
  | 0 => p
  | n + 1 => (p.allocCalls url n).allocStep url

theorem findEntry_setEntry_self (m : List (String × ResourceEntry)) (url : String)
    (e : ResourceEntry) : findEntry (setEntry m url e) url = some e := by
  induction m with
  | nil => simp [setEntry, findEntry]
  | cons hd tl ih =>
      obtain ⟨u, e0⟩ := hd
      by_cases h : u = url
      · simp [setEntry, findEntry, h]
      · simp [setEntry, findEntry, h, ih]

theorem liveCount_allocStep (p : Html5AudioPool) (url : String) :
    (p.allocStep url).liveCount url =
      if p.liveCount url < p.maxNodesPerSource then p.liveCount url + 1
      else p.liveCount url := by
  simp only [Html5AudioPool.liveCount, Html5AudioPool.allocStep,
    Html5AudioPool.allocateForSource, Html5AudioPool.entryFor]
  by_cases h :
      ((findEntry p.resourceNodesMap url).getD ResourceEntry.empty).live < p.maxNodesPerSource
  · simp only [h, if_pos]
    simp [findEntry_setEntry_self, ResourceEntry.live, ResourceEntry.allocatedCount,
      Nat.add_right_comm]
  · simp [h]

theorem maxNodes_allocStep (p : Html5AudioPool) (url : String) :
    (p.allocStep url).maxNodesPerSource = p.maxNodesPerSource := by
  by_cases h : (p.entryFor url).live < p.maxNodesPerSource
  · simp [Html5AudioPool.allocStep, Html5AudioPool.allocateForSource, h]
  · simp [Html5AudioPool.allocStep, Html5AudioPool.allocateForSource, h]

theorem liveCount_allocCalls_le (m : Nat) (url : String) (n : Nat) :
    ((Html5AudioPool.empty m).allocCalls url n).liveCount url ≤ m ∧
      ((Html5AudioPool.empty m).allocCalls url n).maxNodesPerSource = m := by
  induction n with
  | zero =>
      constructor
      · simp [Html5AudioPool.allocCalls, Html5AudioPool.liveCount, Html5AudioPool.empty,
          Html5AudioPool.entryFor, findEntry, ResourceEntry.empty, ResourceEntry.live,
          ResourceEntry.allocatedCount]
      · rfl
  | succ n ih =>
      obtain ⟨hle, hmax⟩ := ih
      constructor
      · rw [Html5AudioPool.allocCalls, liveCount_allocStep, hmax]
        by_cases h : ((Html5AudioPool.empty m).allocCalls url n).liveCount url < m
        · rw [if_pos h]
          omega
        · rw [if_neg h]
          exact hle
      · rw [Html5AudioPool.allocCalls, maxNodes_allocStep, hmax]

/-- C1: over any sequence of `allocateForSource` calls on one resource URL,
the number of live nodes for that URL (unallocated plus all allocated)
never exceeds the configured maximum, and a further `allocateForSource`
call made when the maximum is already reached fails with a `PoolExhausted`
error naming the resource. -/
theorem pool_allocateForSource_bounded (m : Nat) (url : String) (n : Nat) :
    ((Html5AudioPool.empty m).allocCalls url n).liveCount url ≤ m ∧
      (((Html5AudioPool.empty m).allocCalls url n).liveCount url = m →
        ((Html5AudioPool.empty m).allocCalls url n).allocateForSource url =
          .error (.poolExhausted url)) := by
  obtain ⟨hle, hmax⟩ := liveCount_allocCalls_le m url n
  refine ⟨hle, fun hfull => ?_⟩
  have hnot : ¬ ((((Html5AudioPool.empty m).allocCalls url n).entryFor url).live <
      ((Html5AudioPool.empty m).allocCalls url n).maxNodesPerSource) := by
    rw [hmax]
    simp only [Html5AudioPool.liveCount] at hfull
    omega
  simp [Html5AudioPool.allocateForSource, hnot]

/-- Witness for C1 at the spec scenario: maximum 2 for URL `X`, after three
calls the live count is at the maximum and the next call throws
`PoolExhausted` naming `X`. -/
theorem pool_allocateForSource_bounded_witness :
    ((Html5AudioPool.empty 2).allocCalls "X" 3).allocateForSource "X" =
      .error (.poolExhausted "X") :=
  (pool_allocateForSource_bounded 2 "X" 3).2 (by decide)

/-! ## The sound state machine (BufferBuzz / MediaBuzz)

The sound states of `BaseBuzz` (spec section 4.3). -/

inductive BuzzState where
  | idle
  | loading
  | playing
  | paused
  | destroyed
deriving Repr, DecidableEq

/-- An armed end-of-region timer: the clock time at which `setTimeout` was
called and the delay argument that was passed to it (in milliseconds). -/
structure EndTimer where
  armedAt : ℚ
  delayMs : ℚ
deriving Repr, DecidableEq

/-- Observable effects of a sound operation, in the order the source
performs them. -/
inductive BuzzEv where
  | fire (name : String) (arg : Option ℚ)
  | playNode (offset dur : ℚ)
  | stopNode
  | cleanNode
  | armTimer (delayMs : ℚ)
  | clearTimer
  | enqueueAction (kind : String)
  | loadRequested
  | setState (s : BuzzState)
deriving Repr, DecidableEq

/-- State of a buffer-backed sound (`BufferBuzz` plus the `BaseBuzz` fields
it reads and writes).  Rationals stand for the JavaScript numbers; the
sprite is the map from sound name to its start/end positions. -/
structure BufferBuzz where
  state : BuzzState
  rate : ℚ
  seekPos : ℚ
  rateSeek : ℚ
  elapsed : ℚ
  startPos : ℚ
  endPos : ℚ
  startTime : ℚ
  duration : ℚ
  loop : Bool
  loaded : Bool
  nodeActive : Bool
  endTimer : Option EndTimer
  sprite : List (String × ℚ × ℚ)
  spriteSound : Option String
deriving Repr, DecidableEq

def BufferBuzz.isPlaying (b : BufferBuzz) : Bool :=
  b.state = BuzzState.playing

def BufferBuzz.isPaused (b : BufferBuzz) : Bool :=
  b.state = BuzzState.paused

/-- Sprite lookup, `this._sprite[sound]`. -/
def spriteLookup (sprite : List (String × ℚ × ℚ)) (name : String) : Option (ℚ × ℚ) :=
  match sprite with
  | [] => none
  | (n, v) :: rest => if n = name then some v else spriteLookup rest name

/-- Embeds `BufferBuzz._getTimeVars`: seek offset, region duration (seconds) and
the timeout in milliseconds, `(duration * 1000) / rate`. -/
def BufferBuzz.getTimeVars (b : BufferBuzz) : ℚ × ℚ × ℚ :=
  let seek := max 0 (if b.seekPos > 0 then b.seekPos else b.startPos)
  let dur := b.endPos - b.startPos
  (seek, dur, (dur * 1000) / b.rate)

/-- Embeds `BufferBuzz._play(sound, fireEvent)` at clock time `now`
(`this._context.currentTime`).  Loading is modelled by the `loaded` flag;
the pending-action queue push and the load request are recorded as
events. -/
def BufferBuzz.playInternal (b : BufferBuzz) (sound : Option String) (fireEvent : Bool)
    (now : ℚ) : BufferBuzz × List BuzzEv :=
  if b.isPlaying then (b, [])
  else if ¬ b.loaded then (b, [.enqueueAction "play", .loadRequested])
  else
    let prevSound := b.spriteSound
    let newSound : Option String :=
      match sound with
      | some s => if (spriteLookup b.sprite s).isSome then some s else none
      | none => none
    let b1 : BufferBuzz :=
      if ¬ b.isPaused ∧ newSound ≠ prevSound then
        { b with spriteSound := newSound, seekPos := 0 }
      else
        { b with spriteSound := newSound }
    let b2 : BufferBuzz :=
      match newSound.bind (spriteLookup b1.sprite) with
      | some (s, e) => { b1 with startPos := s, endPos := e }
      | none => { b1 with startPos := 0, endPos := b1.duration }
    let tv := b2.getTimeVars
    ({ b2 with
        nodeActive := true,
        startTime := now,
        endTimer := some { armedAt := now, delayMs := tv.2.2 },
        state := BuzzState.playing },
     [.playNode tv.1 tv.2.1, .armTimer tv.2.2, .setState .playing] ++
       (if fireEvent then [.fire "play" none] else []))

/-- Embeds `BufferBuzz._onEnded` at clock time `now`.  On a looping sound the
source rearms the timer with the second component of `_getTimeVars` (the
region duration in seconds), not the third (the millisecond timeout). -/
def BufferBuzz.onEnded (b : BufferBuzz) (now : ℚ) : BufferBuzz × List BuzzEv :=
  if b.loop then
    let b1 : BufferBuzz := { b with seekPos := b.startPos, rateSeek := 0, startTime := now }
    let dur := b1.getTimeVars.2.1
    ({ b1 with endTimer := some { armedAt := now, delayMs := dur } },
     [.fire "playend" none, .armTimer dur, .fire "playstart" none])
  else
    ({ b with
        seekPos := 0, rateSeek := 0, endTimer := none, nodeActive := false,
        state := BuzzState.idle },
     [.clearTimer, .cleanNode, .setState .idle, .fire "playend" none])

/-- The `seek()` getter: elapsed plus the rate-anchored correction plus the
real time since the playback time base, scaled by the rate.  The
JavaScript truthiness test on `_rateSeek` is `rateSeek ≠ 0`. -/
def BufferBuzz.seekGetter (b : BufferBuzz) (now : ℚ) : ℚ :=
  let realTime := if b.isPlaying then now - b.startTime else 0
  let rateElapsed := if b.rateSeek ≠ 0 then b.rateSeek - b.elapsed else 0
  b.elapsed + (rateElapsed + realTime * b.rate)

/-- A JavaScript argument: `undefined`, some non-numeric value, or a
number. -/
inductive JsArg where
  | undef
  | nonNumber
  | num (q : ℚ)
deriving Repr, DecidableEq

/-- Embeds `BufferBuzz.rate(rate)` at clock time `now`.  The guard of the source
is `typeof rate !== 'number' || rate < 0 || rate > 5`; an `undefined`
argument takes the getter path, which mutates nothing.  On the playing
branch the source sets the node rate and rearms the timer with
`(duration * 1000) / Math.abs(rate)` (at rate `0` JavaScript arms the
timer with `Infinity`; no claim below evaluates that point). -/
def BufferBuzz.rateMethod (b : BufferBuzz) (v : JsArg) (now : ℚ) : BufferBuzz × List BuzzEv :=
  match v with
  | .undef => (b, [])
  | .nonNumber => (b, [])
  | .num q =>
      if q < 0 ∨ q > 5 then (b, [])
      else
        let b1 : BufferBuzz := { b with rateSeek := b.seekGetter now, startTime := now, rate := q }
        if b1.isPlaying then
          let dur := b1.getTimeVars.2.1
          ({ b1 with endTimer := some { armedAt := now, delayMs := (dur * 1000) / |q| } },
           [.clearTimer, .armTimer ((dur * 1000) / |q|), .fire "rate" (some q)])
        else
          (b1, [.fire "rate" (some q)])

/-- Modelled from the spec: `BaseBuzz._pause` is not under `src/` (only the
subclasses are).  Per spec section 4.3, `pause()` captures the current
computed playback position as the elapsed/seek position (the spec data
model, section 3, treats the seek/elapsed position as one attribute, so
the captured value is stored to both fields), stops the backend node
without resetting its position, clears the end timer and sets the state
to `Paused`, firing `pause` when `fireEvent` is set.  A sound that is not
playing is left unchanged. -/
def BufferBuzz.pauseInternal (b : BufferBuzz) (fireEvent : Bool) (now : ℚ) :
    BufferBuzz × List BuzzEv :=
  if ¬ b.isPlaying then (b, [])
  else
    let pos := b.seekGetter now
    ({ b with
        seekPos := pos, elapsed := pos, endTimer := none, nodeActive := false,
        state := BuzzState.paused },
     [.stopNode, .clearTimer, .setState .paused] ++
       (if fireEvent then [.fire "pause" none] else []))

/-- Embeds the `BufferBuzz.seek(seek)` setter at clock time `now`: rejects non-numbers
and negative positions, enqueues when not loaded, rejects positions past
the duration, otherwise pauses a playing sound, stores the position into
`_elapsed`, fires `seek` and replays. -/
def BufferBuzz.seekMethod (b : BufferBuzz) (v : JsArg) (now : ℚ) : BufferBuzz × List BuzzEv :=
  match v with
  | .undef => (b, [])
  | .nonNumber => (b, [])
  | .num p =>
      if p < 0 then (b, [])
      else if ¬ b.loaded then (b, [.enqueueAction "seek", .loadRequested])
      else if p > b.duration then (b, [])
      else
        let wasPlaying := b.isPlaying
        let r1 := if wasPlaying then b.pauseInternal false now else (b, [])
        let b2 : BufferBuzz := { r1.1 with elapsed := p }
        if wasPlaying then
          let r3 := b2.playInternal none false now
          (r3.1, r1.2 ++ [.fire "seek" (some p)] ++ r3.2)
        else
          (b2, r1.2 ++ [.fire "seek" (some p)])

/-! ### Concrete sounds used to evaluate the buffer state machine -/

/-- A loaded, playing, looping sound over the region `[0, 2]` seconds at
rate 1, its timer armed at clock 0 with the 2000 ms timeout. -/
def loopRegionDemo : BufferBuzz :=
  { state := .playing, rate := 1, seekPos := 0, rateSeek := 0, elapsed := 0,
    startPos := 0, endPos := 2, startTime := 0, duration := 2, loop := true,
    loaded := true, nodeActive := true,
    endTimer := some { armedAt := 0, delayMs := 2000 },
    sprite := [], spriteSound := none }

/-- The same sound before playback starts. -/
def idleRegionDemo : BufferBuzz :=
  { loopRegionDemo with state := .idle, nodeActive := false, endTimer := none }

/-- A loaded, paused sound at rate 1. -/
def pausedDemo : BufferBuzz :=
  { state := .paused, rate := 1, seekPos := 0, rateSeek := 0, elapsed := 0,
    startPos := 0, endPos := 10, startTime := 0, duration := 10, loop := false,
    loaded := true, nodeActive := false, endTimer := none,
    sprite := [], spriteSound := none }

/-- A loaded sound playing the full `[0, 10]` region at rate 1 since clock
time 0, timer armed at 0 for 10000 ms. -/
def playingRegionDemo : BufferBuzz :=
  { state := .playing, rate := 1, seekPos := 0, rateSeek := 0, elapsed := 0,
    startPos := 0, endPos := 10, startTime := 0, duration := 10, loop := false,
    loaded := true, nodeActive := true,
    endTimer := some { armedAt := 0, delayMs := 10000 },
    sprite := [], spriteSound := none }

/-- A playing sound that resumed from position 1 at clock time 3 (so at
clock time 5 its computed position is 3). -/
def playingSeekDemo : BufferBuzz :=
  { state := .playing, rate := 1, seekPos := 1, rateSeek := 0, elapsed := 1,
    startPos := 0, endPos := 10, startTime := 3, duration := 10, loop := false,
    loaded := true, nodeActive := true,
    endTimer := some { armedAt := 3, delayMs := 9000 },
    sprite := [], spriteSound := none }

/-- Milliseconds left on an armed timer at clock time `now`. -/
def EndTimer.remainingMs (t : EndTimer) (now : ℚ) : ℚ :=
  t.delayMs - (now - t.armedAt) * 1000

/-- C2: starting playback arms the end timer for
`(regionDuration / rate) * 1000` ms, but when the timer refires on a
looping sound, `_onEnded` rearms it with the raw region duration in
seconds (the second component of `_getTimeVars`), not the millisecond
timeout: for the 2-second region at rate 1 the refire delay is `2`, not
`2000`. -/
theorem bufferBuzz_onEnded_loop_timer_code_bug :
    ((idleRegionDemo.playInternal none true 0).1.endTimer =
        some { armedAt := 0, delayMs := ((2 - 0) / 1) * 1000 }) ∧
      ((loopRegionDemo.onEnded 2).1.endTimer = some { armedAt := 2, delayMs := 2 }) ∧
      ((2 : ℚ) ≠ ((2 - 0) / 1) * 1000) := by
  refine ⟨?_, ?_, by norm_num⟩
  · simp [BufferBuzz.playInternal, idleRegionDemo, loopRegionDemo, BufferBuzz.isPlaying,
      BufferBuzz.isPaused, BufferBuzz.getTimeVars, spriteLookup]
  · simp [BufferBuzz.onEnded, loopRegionDemo, BufferBuzz.getTimeVars]

/-- C4 counterexample: `rate(0)` is not rejected.  The source guard is
`rate < 0 || rate > 5`, so on a sound whose rate is 1 the call
`rate(0)` stores 0 and fires the `rate` event, where the claim requires a
no-op with no event. -/
theorem bufferBuzz_rate_zero_accepted :
    pausedDemo.rate = 1 ∧
      (pausedDemo.rateMethod (.num 0) 0).1.rate = 0 ∧
      (pausedDemo.rateMethod (.num 0) 0).2 = [.fire "rate" (some 0)] := by
  refine ⟨rfl, ?_, ?_⟩
  · simp +decide [BufferBuzz.rateMethod, pausedDemo, BufferBuzz.isPlaying, BufferBuzz.seekGetter]
  · simp +decide [BufferBuzz.rateMethod, pausedDemo, BufferBuzz.isPlaying, BufferBuzz.seekGetter]

/-- C4 amended: the accepted range is `[0, 5]` — a non-numeric argument or
a value outside `[0, 5]` leaves the sound unchanged and fires nothing,
while any value in `[0, 5]` is stored as the new rate and fires the
`rate` event. -/
theorem bufferBuzz_rate_range_amended (b : BufferBuzz) (q now : ℚ) :
    b.rateMethod .nonNumber now = (b, []) ∧
      ((q < 0 ∨ 5 < q) → b.rateMethod (.num q) now = (b, [])) ∧
      (0 ≤ q → q ≤ 5 →
        (b.rateMethod (.num q) now).1.rate = q ∧
          BuzzEv.fire "rate" (some q) ∈ (b.rateMethod (.num q) now).2) := by
  refine ⟨rfl, fun h => ?_, fun h0 h5 => ?_⟩
  · have : q < 0 ∨ q > 5 := h
    simp [BufferBuzz.rateMethod, this]
  · have hguard : ¬ (q < 0 ∨ q > 5) := by
      push_neg
      exact ⟨h0, h5⟩
    by_cases hp : ({ b with
        rateSeek := b.seekGetter now, startTime := now, rate := q } : BufferBuzz).isPlaying
    · simp [BufferBuzz.rateMethod, hguard, hp]
    · simp [BufferBuzz.rateMethod, hguard, hp]

/-- Witness for C4 amended: on the paused demo sound, `rate(6)` is a no-op
and `rate(2)` stores 2 and fires the `rate` event. -/
theorem bufferBuzz_rate_range_amended_witness :
    pausedDemo.rateMethod (.num 6) 0 = (pausedDemo, []) ∧
      ((pausedDemo.rateMethod (.num 2) 0).1.rate = 2 ∧
        BuzzEv.fire "rate" (some 2) ∈ (pausedDemo.rateMethod (.num 2) 0).2) :=
  ⟨(bufferBuzz_rate_range_amended pausedDemo 6 0).2.1 (by norm_num),
   (bufferBuzz_rate_range_amended pausedDemo 2 0).2.2 (by norm_num) (by norm_num)⟩

/-- C5 counterexample: on a sound playing the `[0, 10]` region since clock
0 (timer armed at 0 for 10000 ms), calling `rate(2)` at clock time 4
rearms the timer for 5000 ms — the full region duration scaled by the new
rate — while 6000 ms were remaining, so the new delay is not the
remaining duration halved (3000 ms). -/
theorem bufferBuzz_rate_two_not_half_remaining :
    ((playingRegionDemo.rateMethod (.num 2) 4).1.endTimer =
        some { armedAt := 4, delayMs := 5000 }) ∧
      (playingRegionDemo.endTimer.map (fun t => t.remainingMs 4) = some 6000) ∧
      (EndTimer.remainingMs { armedAt := 4, delayMs := 5000 } 4 ≠ 6000 / 2) := by
  refine ⟨?_, ?_, ?_⟩
  · simp [BufferBuzz.rateMethod, playingRegionDemo, BufferBuzz.isPlaying,
      BufferBuzz.seekGetter, BufferBuzz.getTimeVars]
    norm_num
  · simp [playingRegionDemo, EndTimer.remainingMs]
    norm_num
  · simp [EndTimer.remainingMs]
    norm_num

/-- C5 amended: an accepted `rate(q)` on a playing sound captures the
current computed seek as the rate anchor, resets the playback time base
to the current clock time, and rearms the end timer with the full region
duration scaled by the new rate, `(regionDuration * 1000) / |q|` —
independent of how much of the region had already played. -/
theorem bufferBuzz_rate_playing_rearm (b : BufferBuzz) (q now : ℚ)
    (h0 : 0 ≤ q) (h5 : q ≤ 5) (hp : b.state = BuzzState.playing) :
    (b.rateMethod (.num q) now).1.rateSeek = b.seekGetter now ∧
      (b.rateMethod (.num q) now).1.startTime = now ∧
      (b.rateMethod (.num q) now).1.rate = q ∧
      (b.rateMethod (.num q) now).1.endTimer =
        some { armedAt := now, delayMs := ((b.endPos - b.startPos) * 1000) / |q| } := by
  have hguard : ¬ (q < 0 ∨ q > 5) := by
    push_neg
    exact ⟨h0, h5⟩
  have hp2 : ({ b with
      rateSeek := b.seekGetter now, startTime := now, rate := q } : BufferBuzz).isPlaying := by
    simp [BufferBuzz.isPlaying, hp]
  simp [BufferBuzz.rateMethod, hguard, hp2, BufferBuzz.getTimeVars]

/-- Witness for C5 amended: `rate(2)` at clock 4 on the demo playing sound
anchors the computed seek 4, rebases the time base and arms the timer for
`(10 * 1000) / 2 = 5000` ms. -/
theorem bufferBuzz_rate_playing_rearm_witness :
    (playingRegionDemo.rateMethod (.num 2) 4).1.rateSeek =
        playingRegionDemo.seekGetter 4 ∧
      (playingRegionDemo.rateMethod (.num 2) 4).1.startTime = 4 ∧
      (playingRegionDemo.rateMethod (.num 2) 4).1.rate = 2 ∧
      (playingRegionDemo.rateMethod (.num 2) 4).1.endTimer =
        some { armedAt := 4,
               delayMs := ((playingRegionDemo.endPos - playingRegionDemo.startPos) * 1000) / |(2 : ℚ)| } :=
  bufferBuzz_rate_playing_rearm playingRegionDemo 2 4 (by norm_num) (by norm_num) rfl

/-- C6: `seek(5)` at clock time 5 on a loaded sound playing from position 1
since clock 3 (computed position 3) pauses, stores 5 into `_elapsed`,
fires `seek`, and then resumes playback — but the restart offset handed
to the backend node is the pause-captured `_seek` (3), not the requested
position 5, because `seek()` writes only `_elapsed` while `_play` reads
`_seek`. -/
theorem bufferBuzz_seek_resumes_from_stale_position :
    ((playingSeekDemo.seekMethod (.num 5) 5).2 =
        [.stopNode, .clearTimer, .setState .paused, .fire "seek" (some 5),
         .playNode 3 10, .armTimer 10000, .setState .playing]) ∧
      ((playingSeekDemo.seekMethod (.num 5) 5).1.elapsed = 5) ∧
      ((3 : ℚ) ≠ 5) := by
  refine ⟨?_, ?_, by norm_num⟩
  · norm_num [BufferBuzz.seekMethod, playingSeekDemo, BufferBuzz.isPlaying, BufferBuzz.isPaused,
      BufferBuzz.pauseInternal, BufferBuzz.seekGetter, BufferBuzz.playInternal,
      BufferBuzz.getTimeVars, spriteLookup]
    decide
  · norm_num [BufferBuzz.seekMethod, playingSeekDemo, BufferBuzz.isPlaying, BufferBuzz.isPaused,
      BufferBuzz.pauseInternal, BufferBuzz.seekGetter, BufferBuzz.playInternal,
      BufferBuzz.getTimeVars, spriteLookup]
    decide

/-! ## The media-element-backed sound (MediaBuzz) -/

/-- State of a media-element-backed sound: the fields of `MediaBuzz` plus
the `BaseBuzz` fields its `_onEnded` path reads and writes.
`audioCurrentTime`/`audioPlaying` stand for the HTML5 audio element. -/
structure MediaBuzz where
  state : BuzzState
  loop : Bool
  rate : ℚ
  startPos : ℚ
  endPos : ℚ
  duration : ℚ
  elapsed : ℚ
  audioCurrentTime : ℚ
  audioPlaying : Bool
  endTimer : Option EndTimer
  loaded : Bool
deriving Repr, DecidableEq

/-- Modelled from the spec: `BaseBuzz._stop(fireEvent)` is not under `src/`.
Per spec section 4.3, `stop()` resets the elapsed position to 0, stops the
backend node (the media backend handler, `MediaBuzz._handleStop`, is in
the source: it pauses the audio element and resets its position to the
region start), clears the timer and sets state `Idle`, firing `stop` only
when `fireEvent` is set. -/
def MediaBuzz.stopInternal (b : MediaBuzz) (fireEvent : Bool) : MediaBuzz × List BuzzEv :=
  ({ b with
      elapsed := 0, audioPlaying := false, audioCurrentTime := b.startPos,
      endTimer := none, state := BuzzState.idle },
   [.stopNode, .clearTimer, .setState .idle] ++
     (if fireEvent then [.fire "stop" none] else []))

/-- Modelled from the spec: `BaseBuzz.play()` (used by `MediaBuzz`, which
does not override it) is not under `src/`.  Per spec section 4.3: a
playing sound is a no-op; a not-yet-loaded sound enqueues the intent and
triggers a load; otherwise the effective start offset is the resume
position or the region start, the backend node is started
(`MediaBuzz._playNode` in the source assigns the offset to the audio
element and plays it), an end-of-region timer is armed for
`(regionDuration / rate) * 1000` ms, the state becomes `Playing` and
`play` is emitted. -/
def MediaBuzz.playMethod (b : MediaBuzz) (now : ℚ) : MediaBuzz × List BuzzEv :=
  if b.state = BuzzState.playing then (b, [])
  else if ¬ b.loaded then (b, [.enqueueAction "play", .loadRequested])
  else
    let offset := if b.elapsed > 0 then b.elapsed else b.startPos
    let timeout := ((b.endPos - b.startPos) / b.rate) * 1000
    ({ b with
        audioCurrentTime := offset, audioPlaying := true,
        endTimer := some { armedAt := now, delayMs := timeout },
        state := BuzzState.playing },
     [.playNode offset (b.endPos - b.startPos), .armTimer timeout,
      .setState .playing, .fire "play" none])

/-- Embeds `MediaBuzz._onEnded`: when looping, fire `playend` and then
`this._stop(false).play()`; otherwise `_stop(false)`, set state `Idle`
and fire `playend`. -/
def MediaBuzz.onEnded (b : MediaBuzz) (now : ℚ) : MediaBuzz × List BuzzEv :=
  if b.loop then
    let r1 := b.stopInternal false
    let r2 := r1.1.playMethod now
    (r2.1, [.fire "playend" none] ++ r1.2 ++ r2.2)
  else
    let r1 := b.stopInternal false
    ({ r1.1 with state := BuzzState.idle },
     r1.2 ++ [.setState .idle, .fire "playend" none])

/-- A loaded, looping media sound playing a 2-second region at rate 1. -/
def mediaLoopDemo : MediaBuzz :=
  { state := .playing, loop := true, rate := 1, startPos := 0, endPos := 2,
    duration := 2, elapsed := 1, audioCurrentTime := 1, audioPlaying := true,
    endTimer := some { armedAt := 0, delayMs := 2000 }, loaded := true }

/-- The non-looping variant of the same sound. -/
def mediaOnceDemo : MediaBuzz :=
  { mediaLoopDemo with loop := false }

/-- C3 counterexample: on the streaming backend, the end-of-playback
handler of a looping sound does not emit `playstart` and does not stay in
`Playing` — it fires `playend`, stops (dropping to `Idle`) and replays,
firing `play`. -/
theorem mediaBuzz_loop_no_playstart :
    ((mediaLoopDemo.onEnded 2).2 =
        [.fire "playend" none, .stopNode, .clearTimer, .setState .idle,
         .playNode 0 2, .armTimer 2000, .setState .playing, .fire "play" none]) ∧
      (BuzzEv.fire "playstart" none ∉ (mediaLoopDemo.onEnded 2).2) ∧
      (BuzzEv.setState .idle ∈ (mediaLoopDemo.onEnded 2).2) := by
  refine ⟨?_, ?_, ?_⟩
  · simp +decide [MediaBuzz.onEnded, mediaLoopDemo, MediaBuzz.stopInternal, MediaBuzz.playMethod]
    norm_num
  · simp +decide [MediaBuzz.onEnded, mediaLoopDemo, MediaBuzz.stopInternal, MediaBuzz.playMethod]
  · simp +decide [MediaBuzz.onEnded, mediaLoopDemo, MediaBuzz.stopInternal, MediaBuzz.playMethod]

/-- C3 amended: when the end-of-region handler fires, on the buffer backend
a looping sound emits `playend`, resets its seek position to the region
start, rearms the timer and emits `playstart` without ever leaving
`Playing`, and a non-looping sound resets its position bookkeeping, tears
down the backend node, transitions to `Idle` and emits only `playend`;
on the streaming backend a non-looping sound likewise ends in `Idle`
emitting only `playend`, but a looping sound instead stops silently and
replays: it emits `playend` followed by `play` (not `playstart`),
passing through `Idle` before re-entering `Playing`, with the audio
element reset to the region start. -/
theorem onEnded_loop_behaviour (b : BufferBuzz) (mb : MediaBuzz) (now : ℚ)
    (hb : b.state = BuzzState.playing) (_hmb : mb.state = BuzzState.playing)
    (hmbl : mb.loaded = true) :
    (b.loop = true →
      (b.onEnded now).1.state = BuzzState.playing ∧
        (b.onEnded now).1.seekPos = b.startPos ∧
        (b.onEnded now).1.endTimer =
          some { armedAt := now, delayMs := b.endPos - b.startPos } ∧
        (b.onEnded now).2 =
          [.fire "playend" none, .armTimer (b.endPos - b.startPos),
           .fire "playstart" none]) ∧
    (b.loop = false →
      (b.onEnded now).1.state = BuzzState.idle ∧
        (b.onEnded now).1.seekPos = 0 ∧
        (b.onEnded now).1.rateSeek = 0 ∧
        (b.onEnded now).1.endTimer = none ∧
        (b.onEnded now).1.nodeActive = false ∧
        (b.onEnded now).2 = [.clearTimer, .cleanNode, .setState .idle,
          .fire "playend" none]) ∧
    (mb.loop = false →
      (mb.onEnded now).1.state = BuzzState.idle ∧
        (mb.onEnded now).2 = [.stopNode, .clearTimer, .setState .idle,
          .setState .idle, .fire "playend" none]) ∧
    (mb.loop = true →
      (mb.onEnded now).1.state = BuzzState.playing ∧
        (mb.onEnded now).1.audioCurrentTime = mb.startPos ∧
        (mb.onEnded now).2 =
          [.fire "playend" none, .stopNode, .clearTimer, .setState .idle,
           .playNode mb.startPos (mb.endPos - mb.startPos),
           .armTimer (((mb.endPos - mb.startPos) / mb.rate) * 1000),
           .setState .playing, .fire "play" none]) := by
  refine ⟨fun hl => ?_, fun hl => ?_, fun hl => ?_, fun hl => ?_⟩
  · simp [BufferBuzz.onEnded, hl, BufferBuzz.getTimeVars]
    exact hb
  · simp [BufferBuzz.onEnded, hl]
  · simp [MediaBuzz.onEnded, hl, MediaBuzz.stopInternal]
  · have hoff : ¬ ((0 : ℚ) > 0) := by norm_num
    simp [MediaBuzz.onEnded, hl, MediaBuzz.stopInternal, MediaBuzz.playMethod, hmbl, hoff]

/-- Witness for C3 amended, at the concrete looping and non-looping media
sounds and the buffer demo sounds. -/
theorem onEnded_loop_behaviour_witness :
    ((loopRegionDemo.onEnded 2).1.state = BuzzState.playing ∧
        (loopRegionDemo.onEnded 2).1.seekPos = loopRegionDemo.startPos ∧
        (loopRegionDemo.onEnded 2).1.endTimer =
          some { armedAt := 2, delayMs := loopRegionDemo.endPos - loopRegionDemo.startPos } ∧
        (loopRegionDemo.onEnded 2).2 =
          [.fire "playend" none, .armTimer (loopRegionDemo.endPos - loopRegionDemo.startPos),
           .fire "playstart" none]) ∧
      ((mediaLoopDemo.onEnded 2).1.state = BuzzState.playing ∧
        (mediaLoopDemo.onEnded 2).1.audioCurrentTime = mediaLoopDemo.startPos ∧
        (mediaLoopDemo.onEnded 2).2 =
          [.fire "playend" none, .stopNode, .clearTimer, .setState .idle,
           .playNode mediaLoopDemo.startPos (mediaLoopDemo.endPos - mediaLoopDemo.startPos),
           .armTimer (((mediaLoopDemo.endPos - mediaLoopDemo.startPos) / mediaLoopDemo.rate) * 1000),
           .setState .playing, .fire "play" none]) :=
  ⟨(onEnded_loop_behaviour loopRegionDemo mediaLoopDemo 2 rfl rfl rfl).1 rfl,
   (onEnded_loop_behaviour loopRegionDemo mediaLoopDemo 2 rfl rfl rfl).2.2.2 rfl⟩

/-! ## MediaLoader and the pool operations it drives -/

/-- Groups of an entry: lookup of the node list allocated to a group. -/
def findGroup (g : List (Nat × List PoolNode)) (gid : Nat) : Option (List PoolNode) :=
  match g with
  | [] => none
  | (k, l) :: rest => if k = gid then some l else findGroup rest gid

/-- Replaces (or appends) the node list allocated to a group. -/
def setGroup (g : List (Nat × List PoolNode)) (gid : Nat) (l : List PoolNode) :
    List (Nat × List PoolNode) :=
  match g with
  | [] => [(gid, l)]
  | (k, l0) :: rest => if k = gid then (gid, l) :: rest else (k, l0) :: setGroup rest gid l

/-- Removes the first node with the given identity from a list. -/
def removeNodeById (l : List PoolNode) (nid : Nat) : List PoolNode :=
  match l with
  | [] => []
  | x :: rest => if x.nodeId = nid then rest else x :: removeNodeById rest nid

/-- Association-list removal of a resource entry. -/
def removeEntry (m : List (String × ResourceEntry)) (url : String) :
    List (String × ResourceEntry) :=
  match m with
  | [] => []
  | (u, e) :: rest => if u = url then rest else (u, e) :: removeEntry rest url

/-- Modelled from the spec: `Html5AudioPool.allocateForGroup` is not under
`src/`.  Per spec section 4.1: if `unallocated` is non-empty, pop one
node and move it into `allocated[groupId]`; otherwise, if under the
maximum, create a new node directly into `allocated[groupId]`; at the
maximum with no unallocated nodes, fail with `PoolExhausted`. -/
def Html5AudioPool.allocateForGroup (p : Html5AudioPool) (url : String) (gid : Nat) :
    Except BuzzerError (Html5AudioPool × PoolNode) :=
  let entry := p.entryFor url
  match entry.unallocated with
  | node :: rest =>
      .ok ({ p with
              resourceNodesMap :=
                setEntry p.resourceNodesMap url
                  { unallocated := rest,
                    allocated :=
                      setGroup entry.allocated gid
                        ((findGroup entry.allocated gid).getD [] ++ [node]) } }, node)
  | [] =>
      if entry.live < p.maxNodesPerSource then
        let node : PoolNode := { nodeId := p.nextNodeId, soundId := none }
        .ok ({ p with
                resourceNodesMap :=
                  setEntry p.resourceNodesMap url
                    { entry with
                        allocated :=
                          setGroup entry.allocated gid
                            ((findGroup entry.allocated gid).getD [] ++ [node]) },
                nextNodeId := p.nextNodeId + 1 }, node)
      else
        .error (.poolExhausted url)

/-- Modelled from the spec: `Html5AudioPool.destroyAllocatedAudio` is not
under `src/`.  Per spec section 4.1 it removes the specific node from
`allocated[groupId]` without returning it to the pool; with no group id
(a source-level allocation, where the loader passes `undefined`) the
`allocated` map holds no such group and nothing is removed. -/
def Html5AudioPool.destroyAllocatedAudio (p : Html5AudioPool) (url : String)
    (gid : Option Nat) (nid : Nat) : Html5AudioPool :=
  match gid with
  | none => p
  | some g =>
      let entry := p.entryFor url
      match findGroup entry.allocated g with
      | none => p
      | some l =>
          { p with
              resourceNodesMap :=
                setEntry p.resourceNodesMap url
                  { entry with allocated := setGroup entry.allocated g (removeNodeById l nid) } }

/-- Modelled from the spec: `Html5AudioPool.releaseForSource` is not under
`src/`.  Per spec section 4.1 it discards the entire pool entry for the
URL. -/
def Html5AudioPool.releaseForSource (p : Html5AudioPool) (url : String) : Html5AudioPool :=
  { p with resourceNodesMap := removeEntry p.resourceNodesMap url }

/-- The result object the loaders resolve with (`DownloadResult.js` is not
under `src/`; spec section 6 gives `{url, value, error?}`).  `value` is
the identity of the allocated audio node. -/
structure DownloadResult where
  url : String
  value : Option Nat
  error : Option String
deriving Repr, DecidableEq

/-- One entry of `MediaLoader._bufferingAudios`: the url, the group id the
load was scoped to (if any) and the allocated audio element. -/
structure BufferingAudio where
  url : String
  groupId : Option Nat
  audioId : Nat
deriving Repr, DecidableEq

/-- State of a `MediaLoader`: the disposal flag, the buffering set, the
set of `(audioId, eventName)` readiness listeners currently attached to
audio elements, and the pool. -/
structure MediaLoaderState where
  disposed : Bool
  bufferingAudios : List BufferingAudio
  listeners : List (Nat × String)
  pool : Html5AudioPool
deriving Repr, DecidableEq

/-- Pool calls a loader callback performs, recorded for observation. -/
inductive LoaderOp where
  | destroyAllocated (url : String) (gid : Option Nat) (nodeId : Nat)
deriving Repr, DecidableEq

/-- A JavaScript runtime error. -/
inductive JsError where
  | typeError (msg : String)
deriving Repr, DecidableEq

/-- Models `removeEventListener(evt, handler)` on the listener set: the DOM
removes a listener only when the passed handler is the registered
function; with `undefined` (`none`) nothing matches and nothing is
removed. -/
def removeListenerEntry (ls : List (Nat × String)) (aid : Nat) (evt : String)
    (handler : Option String) : List (Nat × String) :=
  match handler with
  | none => ls
  | some _ => ls.filter (fun e => ¬ (e.1 = aid ∧ e.2 = evt))

/-- Removes the first occurrence of a buffering entry (the source uses
`indexOf` + `splice(i, 1)`). -/
def removeFirstObj (l : List BufferingAudio) (a : BufferingAudio) : List BufferingAudio :=
  match l with
  | [] => []
  | x :: rest => if x = a then rest else x :: removeFirstObj rest a

/-- Embeds `MediaLoader._cleanUp(audioObj)`: the source calls
`removeEventListener(evt, audioObj[audioObj])` for both event names — the
handler argument is the property named by the object's string conversion,
which is `undefined`, so no listener is actually removed — and then
splices the entry out of the buffering set. -/
def MediaLoader.cleanUpObj (st : MediaLoaderState) (a : BufferingAudio) : MediaLoaderState :=
  { st with
      listeners :=
        removeListenerEntry
          (removeListenerEntry st.listeners a.audioId "canplaythrough" none)
          a.audioId "error" none,
      bufferingAudios := removeFirstObj st.bufferingAudios a }

/-- The synchronous part of `MediaLoader._load(url, groupId)`: allocate an
audio node (for the group when a group id is given, else for the source),
attach the `canplaythrough` and `error` listeners and push the buffering
entry.  A pool failure escapes the promise executor (the promise
rejects), which the spec classifies as a synchronous structural error,
not an I/O failure. -/
def MediaLoader.loadStart (st : MediaLoaderState) (url : String) (gid : Option Nat) :
    Except BuzzerError (MediaLoaderState × Nat) :=
  match (match gid with
         | some g => st.pool.allocateForGroup url g
         | none => st.pool.allocateForSource url) with
  | .error e => .error e
  | .ok (p1, node) =>
      .ok ({ st with
              pool := p1,
              listeners :=
                st.listeners ++ [(node.nodeId, "canplaythrough"), (node.nodeId, "error")],
              bufferingAudios :=
                st.bufferingAudios ++ [{ url := url, groupId := gid, audioId := node.nodeId }] },
           node.nodeId)

/-- The `onCanPlayThrough` callback of `MediaLoader._load`: on a disposed
loader it returns without resolving (`none`); otherwise it cleans up the
buffering entry of this audio element (if still present) and resolves
with the url and the allocated node.  The source invokes the same
callback both from the `canplaythrough` event and directly when a reused
element is already buffered (`readyState >= 3`). -/
def MediaLoader.onCanPlayThroughCb (st : MediaLoaderState) (url : String) (aid : Nat) :
    Option (MediaLoaderState × DownloadResult) :=
  if st.disposed then none
  else
    let st1 :=
      match st.bufferingAudios.find? (fun a => a.audioId = aid) with
      | some a => MediaLoader.cleanUpObj st a
      | none => st
    some (st1, { url := url, value := some aid, error := none })

/-- The `onError` callback of `MediaLoader._load`: on a disposed loader it
returns without resolving; otherwise it cleans up the buffering entry,
destroys the allocated audio via the pool and resolves with the url, a
null handle and the error. -/
def MediaLoader.onErrorCb (st : MediaLoaderState) (url : String) (gid : Option Nat)
    (aid : Nat) (err : String) : Option (MediaLoaderState × List LoaderOp × DownloadResult) :=
  if st.disposed then none
  else
    let st1 :=
      match st.bufferingAudios.find? (fun a => a.audioId = aid) with
      | some a => MediaLoader.cleanUpObj st a
      | none => st
    some ({ st1 with pool := st1.pool.destroyAllocatedAudio url gid aid },
          [.destroyAllocated url gid aid],
          { url := url, value := none, error := some err })

/-- The argument of `MediaLoader.unload`: missing, a single url string, or
an array of urls. -/
inductive UrlsArg where
  | noArg
  | one (url : String)
  | many (urls : List String)
deriving Repr, DecidableEq

/-- JavaScript `Array.prototype.forEach` over the live buffering array while
each visited entry is spliced out by `_cleanUp`: index `i` advances while
the shrinking array still has an element there.  The fuel is the original
length, which bounds the number of visits. -/
def MediaLoader.forEachCleanUp : Nat → Nat → MediaLoaderState → MediaLoaderState
  | 0, _, st => st
  | fuel + 1, i, st =>
      match st.bufferingAudios.get? i with
      | some a => MediaLoader.forEachCleanUp fuel (i + 1) (MediaLoader.cleanUpObj st a)
      | none => st

/-- Embeds `MediaLoader.unload(urls)`: the branch on the argument shape cleans up
matching buffering entries, but the final statement is
`urls.forEach(url => this._audioPool.releaseForSource(url))`
unconditionally — with no argument this reads `forEach` of `undefined`,
and with a string argument `forEach` is not a function, so both throw a
`TypeError` after the cleanup phase. -/
def MediaLoader.unload (st : MediaLoaderState) (urls : UrlsArg) :
    Except JsError MediaLoaderState :=
  let st1 :=
    match urls with
    | .noArg => MediaLoader.forEachCleanUp st.bufferingAudios.length 0 st
    | .one u =>
        match st.bufferingAudios.find? (fun a => a.url = u) with
        | some a => MediaLoader.cleanUpObj st a
        | none => st
    | .many us =>
        if us.length ≠ 0 then
          us.foldl
            (fun s u =>
              match s.bufferingAudios.find? (fun a => a.url = u) with
              | some a => MediaLoader.cleanUpObj s a
              | none => s)
            st
        else st
  match urls with
  | .noArg => .error (.typeError "Cannot read property forEach of undefined")
  | .one _ => .error (.typeError "urls.forEach is not a function")
  | .many us =>
      .ok (us.foldl (fun s u => { s with pool := s.pool.releaseForSource u }) st1)

/-- An undisposed loader with one in-flight buffering entry for url `a`
(audio element 7, allocated at source level), its two readiness listeners
attached, and the corresponding pool entry. -/
def demoLoader : MediaLoaderState :=
  { disposed := false,
    bufferingAudios := [{ url := "a", groupId := none, audioId := 7 }],
    listeners := [(7, "canplaythrough"), (7, "error")],
    pool := { maxNodesPerSource := 10,
              resourceNodesMap :=
                [("a", { unallocated := [{ nodeId := 7, soundId := none }],
                         allocated := [] })],
              nextNodeId := 8 } }

/-- C7: on an undisposed loader, both readiness outcomes resolve the load
promise — success resolves with the url and the allocated node, and a
media loading error resolves (rather than rejects) with the url, a null
handle and the error, additionally destroying the allocated node via the
pool's `destroyAllocatedAudio`. -/
theorem mediaLoader_load_always_resolves (st : MediaLoaderState) (url : String)
    (gid : Option Nat) (aid : Nat) (err : String) (hd : st.disposed = false) :
    (MediaLoader.onCanPlayThroughCb st url aid).map (fun r => r.2) =
        some { url := url, value := some aid, error := none } ∧
      (MediaLoader.onErrorCb st url gid aid err).map (fun r => r.2.2) =
        some { url := url, value := none, error := some err } ∧
      (MediaLoader.onErrorCb st url gid aid err).map (fun r => r.2.1) =
        some [LoaderOp.destroyAllocated url gid aid] := by
  refine ⟨?_, ?_, ?_⟩
  · simp [MediaLoader.onCanPlayThroughCb, hd]
  · simp [MediaLoader.onErrorCb, hd]
  · simp [MediaLoader.onErrorCb, hd]

/-- Witness for C7 at the demo loader: the success outcome resolves with
node 7 and the error outcome resolves with a null handle, the error
message, and the destroy call. -/
theorem mediaLoader_load_always_resolves_witness :
    (MediaLoader.onCanPlayThroughCb demoLoader "a" 7).map (fun r => r.2) =
        some { url := "a", value := some 7, error := none } ∧
      (MediaLoader.onErrorCb demoLoader "a" none 7 "netfail").map (fun r => r.2.2) =
        some { url := "a", value := none, error := some "netfail" } ∧
      (MediaLoader.onErrorCb demoLoader "a" none 7 "netfail").map (fun r => r.2.1) =
        some [LoaderOp.destroyAllocated "a" none 7] :=
  mediaLoader_load_always_resolves demoLoader "a" none 7 "netfail" rfl

/-- C8: `unload()` with no argument and `unload` with a string url both
throw a `TypeError` (the unconditional trailing `urls.forEach`), and even
the array form — which does complete — releases the pool entry and drops
the buffering entry but leaves the readiness listeners attached, because
`_cleanUp` passes `audioObj[audioObj]` (undefined) to
`removeEventListener`. -/
theorem mediaLoader_unload_type_error :
    (MediaLoader.unload demoLoader .noArg =
        .error (.typeError "Cannot read property forEach of undefined")) ∧
      (MediaLoader.unload demoLoader (.one "a") =
        .error (.typeError "urls.forEach is not a function")) ∧
      ((MediaLoader.unload demoLoader (.many ["a"])).map
          (fun s => (s.listeners, s.bufferingAudios, s.pool.resourceNodesMap)) =
        .ok ([(7, "canplaythrough"), (7, "error")], [], [])) := by
  refine ⟨?_, ?_, ?_⟩
  · simp +decide [MediaLoader.unload]
  · simp +decide [MediaLoader.unload, demoLoader, MediaLoader.cleanUpObj,
      removeListenerEntry, removeFirstObj]
  · simp +decide [MediaLoader.unload, demoLoader, MediaLoader.cleanUpObj,
      removeListenerEntry, removeFirstObj, Html5AudioPool.releaseForSource, removeEntry]
    rfl

/-! ## The engine lifecycle (Engine.js) -/

/-- Lifecycle states, `EngineState` of the source. -/
inductive EngineState where
  | notReady
  | ready
  | suspending
  | suspended
  | resuming
  | destroying
  | done
  | noAudio
deriving Repr, DecidableEq

/-- The deferred lifecycle requests the engine stores in its action queue
(the closures `() => this.suspend()` and `() => this.resume()`).  The
deferral `terminate` also uses is outside the modelled fragment. -/
inductive EngAction where
  | suspendAction
  | resumeAction
deriving Repr, DecidableEq

/-- Observable engine effects, in source order. -/
inductive EngEv where
  | stopAllSounds
  | fireEngine (name : String)
  | setEngState (s : EngineState)
  | ctxSuspendRequested
  | ctxResumeRequested
deriving Repr, DecidableEq

/-- Modelled from the spec: the `Queue` utility is not under `src/`; per
spec section 6 it stores actions per phase under a key, where adding an
action under an existing key replaces the pending one, and `run(phase)`
executes and clears the phase. -/
structure EngQueue where
  afterSuspend : List (String × EngAction)
  afterResume : List (String × EngAction)
deriving Repr, DecidableEq

/-- Adds an action under a key, replacing an existing entry of that key. -/
def queueAdd (l : List (String × EngAction)) (k : String) (a : EngAction) :
    List (String × EngAction) :=
  match l with
  | [] => [(k, a)]
  | (k0, a0) :: rest => if k0 = k then (k, a) :: rest else (k0, a0) :: queueAdd rest k a

/-- The input options of `Engine.setup` (`args || {}`); a missing or
non-matching-type field is `none`.  The event-handler options only
register listeners and are not modelled. -/
structure EngineOptions where
  volume : Option ℚ
  muted : Option Bool
  maxNodesPerSource : Option ℚ
  cleanUpInterval : Option ℚ
  autoEnable : Option Bool
deriving Repr, DecidableEq

/-- The empty options object. -/
def EngineOptions.noOpts : EngineOptions :=
  { volume := none, muted := none, maxNodesPerSource := none,
    cleanUpInterval := none, autoEnable := none }

/-- The state of the audio context returned by `utility.getContext`. -/
inductive CtxState where
  | running
  | suspendedCtx
deriving Repr, DecidableEq

/-- The engine: lifecycle state, deferred-action queue and the fields
`setup` reads and writes.  The `has...` flags stand for the owned
resources (audio context, master gain node, the two loaders, the sweep
interval timer). -/
structure Engine where
  state : EngineState
  queue : EngQueue
  volume : ℚ
  muted : Bool
  maxNodesPerSource : ℚ
  cleanUpInterval : ℚ
  autoEnable : Bool
  isAudioAvailable : Bool
  hasContext : Bool
  hasGainNode : Bool
  hasLoaders : Bool
  hasSweepTimer : Bool
deriving Repr, DecidableEq

/-- Embeds `Engine.suspend()`: during a resume, queue the suspension for after the
resume; outside `Ready`, do nothing; in `Ready`, stop all sounds, move to
`Suspending` and ask the context to suspend. -/
def Engine.suspendCall (e : Engine) : Engine × List EngEv :=
  if e.state = EngineState.resuming then
    ({ e with queue :=
        { e.queue with afterResume := queueAdd e.queue.afterResume "suspend" .suspendAction } },
     [])
  else if e.state ≠ EngineState.ready then (e, [])
  else
    ({ e with state := EngineState.suspending },
     [.stopAllSounds, .fireEngine "stop", .setEngState .suspending, .ctxSuspendRequested])

/-- Embeds `Engine.resume()`: during a suspend, queue the resumption for after the
suspend; outside `Suspended`, do nothing; in `Suspended`, move to
`Resuming` and ask the context to resume. -/
def Engine.resumeCall (e : Engine) : Engine × List EngEv :=
  if e.state = EngineState.suspending then
    ({ e with queue :=
        { e.queue with afterSuspend := queueAdd e.queue.afterSuspend "resume" .resumeAction } },
     [])
  else if e.state ≠ EngineState.suspended then (e, [])
  else
    ({ e with state := EngineState.resuming },
     [.setEngState .resuming, .ctxResumeRequested])

/-- Dispatches one queued action. -/
def Engine.runAction (e : Engine) (a : EngAction) : Engine × List EngEv :=
  match a with
  | .suspendAction => e.suspendCall
  | .resumeAction => e.resumeCall

/-- Runs a list of queued actions in order. -/
def Engine.runList (e : Engine) : List (String × EngAction) → Engine × List EngEv
  | [] => (e, [])
  | (_, a) :: rest =>
      let r1 := e.runAction a
      let r2 := Engine.runList r1.1 rest
      (r2.1, r1.2 ++ r2.2)

/-- The fulfilment callback of `context.suspend()`: set `Suspended`, run
the `after-suspend` phase, fire `suspend`. -/
def Engine.suspendSettled (e : Engine) : Engine × List EngEv :=
  let e1 : Engine := { e with state := EngineState.suspended }
  let acts := e1.queue.afterSuspend
  let e2 : Engine := { e1 with queue := { e1.queue with afterSuspend := [] } }
  let r := Engine.runList e2 acts
  (r.1, [.setEngState .suspended] ++ r.2 ++ [.fireEngine "suspend"])

/-- The fulfilment callback of `context.resume()`: set `Ready`, run the
`after-resume` phase, fire `resume`. -/
def Engine.resumeSettled (e : Engine) : Engine × List EngEv :=
  let e1 : Engine := { e with state := EngineState.ready }
  let acts := e1.queue.afterResume
  let e2 : Engine := { e1 with queue := { e1.queue with afterResume := [] } }
  let r := Engine.runList e2 acts
  (r.1, [.setEngState .ready] ++ r.2 ++ [.fireEngine "resume"])

/-- Embeds `Engine.setup(args)` with the context availability and state passed
explicitly (`utility.getContext()`): a second call — any state other than
`NotReady` — returns immediately; with no audio capability the engine
ends in `NoAudio` firing `error`; otherwise the in-range options are
stored, the resources are created and the state follows the context
state. -/
def Engine.setup (e : Engine) (args : Option EngineOptions) (ctx : Option CtxState) :
    Engine × List EngEv :=
  if e.state ≠ EngineState.notReady then (e, [])
  else
    match ctx with
    | none =>
        ({ e with
            hasContext := false, isAudioAvailable := false,
            state := EngineState.noAudio },
         [.setEngState .noAudio, .fireEngine "error"])
    | some c =>
        let a := args.getD EngineOptions.noOpts
        ({ e with
            hasContext := true,
            isAudioAvailable := true,
            volume :=
              match a.volume with
              | some v => if 0 ≤ v ∧ v ≤ 1 then v else e.volume
              | none => e.volume,
            muted := a.muted.getD e.muted,
            maxNodesPerSource := a.maxNodesPerSource.getD e.maxNodesPerSource,
            cleanUpInterval := a.cleanUpInterval.getD e.cleanUpInterval,
            autoEnable := a.autoEnable.getD e.autoEnable,
            hasGainNode := true,
            hasLoaders := true,
            hasSweepTimer := true,
            state :=
              if c = CtxState.running then EngineState.ready else EngineState.suspended },
         [.setEngState
            (if c = CtxState.running then EngineState.ready else EngineState.suspended)])

/-- C9: a `suspend()` issued while the engine is `Resuming` only queues the
suspension (no state change, no context request) and the suspension runs
inside the resume-fulfilment step, after the state reached `Ready`;
symmetrically for `resume()` during `Suspending`; in either in-flight
state neither call starts a transition; and `suspend()` in `Ready` stops
all sounds before entering `Suspending`. -/
theorem engine_suspend_resume_no_overlap (e : Engine) :
    (e.state = EngineState.resuming → e.queue.afterResume = [] →
      (e.suspendCall.1.state = EngineState.resuming ∧
        e.suspendCall.2 = [] ∧
        e.suspendCall.1.queue.afterResume = [("suspend", EngAction.suspendAction)] ∧
        e.suspendCall.1.resumeSettled.1.state = EngineState.suspending ∧
        e.suspendCall.1.resumeSettled.2 =
          [.setEngState .ready, .stopAllSounds, .fireEngine "stop",
           .setEngState .suspending, .ctxSuspendRequested, .fireEngine "resume"])) ∧
    (e.state = EngineState.suspending → e.queue.afterSuspend = [] →
      (e.resumeCall.1.state = EngineState.suspending ∧
        e.resumeCall.2 = [] ∧
        e.resumeCall.1.queue.afterSuspend = [("resume", EngAction.resumeAction)] ∧
        e.resumeCall.1.suspendSettled.1.state = EngineState.resuming ∧
        e.resumeCall.1.suspendSettled.2 =
          [.setEngState .suspended, .setEngState .resuming, .ctxResumeRequested,
           .fireEngine "suspend"])) ∧
    ((e.state = EngineState.suspending ∨ e.state = EngineState.resuming) →
      (e.suspendCall.1.state = e.state ∧ e.resumeCall.1.state = e.state ∧
        e.suspendCall.2 = [] ∧ e.resumeCall.2 = [])) ∧
    (e.state = EngineState.ready →
      e.suspendCall =
        ({ e with state := EngineState.suspending },
         [.stopAllSounds, .fireEngine "stop", .setEngState .suspending,
          .ctxSuspendRequested])) := by
  refine ⟨fun hs hq => ?_, fun hs hq => ?_, fun hs => ?_, fun hs => ?_⟩
  · simp [Engine.suspendCall, Engine.resumeSettled, Engine.runList, Engine.runAction,
      hs, hq, queueAdd]
  · simp [Engine.resumeCall, Engine.suspendSettled, Engine.runList, Engine.runAction,
      hs, hq, queueAdd]
  · rcases hs with hs | hs <;>
      simp [Engine.suspendCall, Engine.resumeCall, hs]
  · simp [Engine.suspendCall, hs]

/-- The demo engine, mid-resume with empty queues. -/
def resumingEngine : Engine :=
  { state := EngineState.resuming,
    queue := { afterSuspend := [], afterResume := [] },
    volume := 1, muted := false, maxNodesPerSource := 10, cleanUpInterval := 5,
    autoEnable := true, isAudioAvailable := true, hasContext := true,
    hasGainNode := true, hasLoaders := true, hasSweepTimer := true }

/-- Witness for C9 at concrete engines: the mid-resume engine queues the
suspension and performs it inside the resume fulfilment; the ready
variant stops sounds before suspending. -/
theorem engine_suspend_resume_no_overlap_witness :
    (resumingEngine.suspendCall.1.state = EngineState.resuming ∧
        resumingEngine.suspendCall.2 = [] ∧
        resumingEngine.suspendCall.1.queue.afterResume =
          [("suspend", EngAction.suspendAction)] ∧
        resumingEngine.suspendCall.1.resumeSettled.1.state = EngineState.suspending ∧
        resumingEngine.suspendCall.1.resumeSettled.2 =
          [.setEngState .ready, .stopAllSounds, .fireEngine "stop",
           .setEngState .suspending, .ctxSuspendRequested, .fireEngine "resume"]) ∧
      ({ resumingEngine with state := EngineState.ready } : Engine).suspendCall =
        ({ resumingEngine with state := EngineState.suspending },
         [.stopAllSounds, .fireEngine "stop", .setEngState .suspending,
          .ctxSuspendRequested]) :=
  ⟨(engine_suspend_resume_no_overlap resumingEngine).1 rfl rfl,
   (engine_suspend_resume_no_overlap
      { resumingEngine with state := EngineState.ready }).2.2.2 rfl⟩

/-- C10: `Engine.setup` is idempotent after first use — in any state other
than `NotReady` it returns immediately with the engine unchanged and no
effects, whatever the arguments. -/
theorem engine_setup_idempotent (e : Engine) (args : Option EngineOptions)
    (ctx : Option CtxState) (h : e.state ≠ EngineState.notReady) :
    Engine.setup e args ctx = (e, []) := by
  simp [Engine.setup, h]

/-- Witness for C10: a second `setup` on the already-ready engine, with
fresh options and a live context, changes nothing. -/
theorem engine_setup_idempotent_witness :
    Engine.setup { resumingEngine with state := EngineState.ready }
        (some { EngineOptions.noOpts with volume := some (1/2), muted := some true })
        (some CtxState.running) =
      ({ resumingEngine with state := EngineState.ready }, []) :=
  engine_setup_idempotent _ _ _ (by decide)
